import Mathlib

/-!
Verification of the inventory ERP core against its specification.

Part 1 embeds the `stock_summary` SQL view (days-of-cover, consumption
rates, stock validation).  Quantities are modelled as rationals: the
view computes over PostgreSQL `numeric` values (the two-argument `ROUND`
only exists for `numeric`), whose arithmetic is decimal-exact at the
scales involved.  A `LEFT JOIN`ed aggregate that found no rows is `NULL`,
modelled as `none`.
-/

/-- PostgreSQL `ROUND` for `numeric`: round half away from zero. -/
def roundHalfAway (x : ℚ) : ℤ :=
  if 0 ≤ x then ⌊x + 1/2⌋ else - ⌊-x + 1/2⌋

/-- PostgreSQL `ROUND(x, d)`: round to `d` decimal places, half away from zero. -/
def roundTo (d : Nat) (x : ℚ) : ℚ :=
  ((roundHalfAway (x * (10 : ℚ) ^ d) : ℚ)) / (10 : ℚ) ^ d

/-- One row of the join feeding the `stock_summary` view: the `stock`
row plus the `LEFT JOIN`ed all-time and trailing-window aggregates
(`none` when the item had no matching `grn_log` / `issue_log` rows). -/
structure StockSourceRow where
  opening_qty : ℚ
  current_qty : ℚ
  total_grn_qty : Option ℚ
  total_issued_qty : Option ℚ
  issue_7d : Option ℚ
  issue_30d : Option ℚ
  issue_90d : Option ℚ
deriving DecidableEq

/-- `calculated_qty`: `opening_qty + COALESCE(total_grn_qty, 0) - COALESCE(total_issued_qty, 0)`. -/
def calculated_qty (r : StockSourceRow) : ℚ :=
  r.opening_qty + r.total_grn_qty.getD 0 - r.total_issued_qty.getD 0

/-- `stock_validation_status`: MISMATCH when calculated and stored stock differ by more than 0.01. -/
def stock_validation_status (r : StockSourceRow) : String :=
  if |calculated_qty r - r.current_qty| > 1/100 then "MISMATCH" else "OK"

/-- The days-of-cover `CASE` expression of the view, for window length `w`:
`WHEN COALESCE(issue, 0) > 0` divide by the daily rate, `WHEN current > 0
AND COALESCE(issue, 0) = 0` the 999999 sentinel, `ELSE 0`.  Under the
first guard the raw column is non-`NULL` and equal to the coalesced
value, so both branches read `issue.getD 0`. -/
def days_of_cover_window (w current : ℚ) (issue : Option ℚ) : ℚ :=
  if issue.getD 0 > 0 then roundTo 1 (current / (issue.getD 0 / w))
  else if current > 0 ∧ issue.getD 0 = 0 then 999999
  else 0

/-- `days_of_cover` (the primary field, 30-day window). -/
def days_of_cover (r : StockSourceRow) : ℚ :=
  days_of_cover_window 30 r.current_qty r.issue_30d

/-- `days_of_cover_7d`. -/
def days_of_cover_7d (r : StockSourceRow) : ℚ :=
  days_of_cover_window 7 r.current_qty r.issue_7d

/-- `days_of_cover_90d`. -/
def days_of_cover_90d (r : StockSourceRow) : ℚ :=
  days_of_cover_window 90 r.current_qty r.issue_90d

/-- The consumption-rate `CASE` expression of the view for window `w`. -/
def consumption_rate_window (w : ℚ) (issue : Option ℚ) : ℚ :=
  if issue.getD 0 > 0 then roundTo 3 (issue.getD 0 / w) else 0

/-- `consumption_rate_7d`. -/
def consumption_rate_7d (r : StockSourceRow) : ℚ :=
  consumption_rate_window 7 r.issue_7d

/-- `consumption_rate_30d`. -/
def consumption_rate_30d (r : StockSourceRow) : ℚ :=
  consumption_rate_window 30 r.issue_30d

/-- `consumption_rate_90d`. -/
def consumption_rate_90d (r : StockSourceRow) : ℚ :=
  consumption_rate_window 90 r.issue_90d

/-- Days of cover as the specification words it: dividing the current
quantity by the 3-decimal-rounded consumption rate. -/
def claimed_days_of_cover (w current issue : ℚ) : ℚ :=
  if issue > 0 then roundTo 1 (current / roundTo 3 (issue / w))
  else if current > 0 then 999999
  else 0

/-- Days of cover as amended: dividing by the unrounded rate `issue / w`
(written `current * w / issue`), with the 999999 sentinel only when
stock is positive and the coalesced issue total is exactly zero. -/
def amended_days_of_cover (w current issue : ℚ) : ℚ :=
  if issue > 0 then roundTo 1 (current * w / issue)
  else if current > 0 ∧ issue = 0 then 999999
  else 0

/-- Consumption rate as the specification words it. -/
def spec_consumption_rate (w issue : ℚ) : ℚ :=
  if issue > 0 then roundTo 3 (issue / w) else 0

/-- Concrete row used to separate the code from the spec formula:
1000 units in stock, 7 units issued in the last 30 days. -/
def c1Row : StockSourceRow :=
  { opening_qty := 0, current_qty := 1000, total_grn_qty := none,
    total_issued_qty := none, issue_7d := none, issue_30d := some 7,
    issue_90d := none }

/-- Concrete row separating the code from the spec sentinel clause:
positive stock with a negative 30-day issue total. -/
def c1RowNeg : StockSourceRow :=
  { opening_qty := 0, current_qty := 5, total_grn_qty := none,
    total_issued_qty := none, issue_7d := none, issue_30d := some (-1),
    issue_90d := none }

/-!
Part 2 embeds `parseCSV` from `ItemMasterCSVUpload.tsx`.  String
primitives (`split`, `trim`, `toLowerCase`) are re-implemented over the
character list so concrete runs reduce in the kernel; JavaScript `trim`
and `toLowerCase` are modelled on the ASCII range, which covers every
string the claims touch.
-/

/-- JavaScript `s.split(sep)` for a one-character separator: splits at
every occurrence, keeping empty segments. -/
def splitOnChar (sep : Char) (s : String) : List String :=
  let st := s.toList.foldl
    (fun (acc : List String × String) c =>
      if c = sep then (acc.1 ++ [acc.2], "") else (acc.1, acc.2.push c))
    ([], "")
  st.1 ++ [st.2]

/-- JavaScript `s.trim()`, restricted to ASCII whitespace. -/
def trimStr (s : String) : String :=
  String.mk (((s.toList.dropWhile Char.isWhitespace).reverse.dropWhile Char.isWhitespace).reverse)

/-- JavaScript `s.toLowerCase()`, restricted to ASCII. -/
def toLowerStr (s : String) : String :=
  String.mk (s.toList.map Char.toLower)

/-- The `replace(/^"|"$/g, "")` applied to every parsed cell: remove one
leading and one trailing double-quote character. -/
def stripOuterQuotes (s : String) : String :=
  let cs := s.toList
  let cs1 := match cs with
    | '"' :: rest => rest
    | _ => cs
  let cs2 := match cs1.reverse with
    | '"' :: rest => rest.reverse
    | _ => cs1
  String.mk cs2

/-- The data-row tokenizer of `parseCSV`: a double quote toggles the
inside-field mode, a comma outside quotes closes the current cell, and
each finished cell is trimmed and stripped of outer quotes. -/
def tokenizeLine (line : String) : List String :=
  let fin := line.toList.foldl
    (fun (st : List String × String × Bool) c =>
      if c = '"' then (st.1, st.2.1, !st.2.2)
      else if c = ',' ∧ st.2.2 = false then
        (st.1 ++ [stripOuterQuotes (trimStr st.2.1)], "", st.2.2)
      else (st.1, st.2.1.push c, st.2.2))
    ([], "", false)
  fin.1 ++ [stripOuterQuotes (trimStr fin.2.1)]

/-- Parsed CSV payload: the header row plus the data rows. -/
structure CSVData where
  headers : List String
  rows : List (List String)
deriving DecidableEq

/-- `parseCSV`: drop blank lines, fail on an empty result, split the
first line on every comma for the headers, and tokenize the remaining
lines with the quote-aware tokenizer. -/
def parseCSV (text : String) : Except String CSVData :=
  match (splitOnChar (Char.ofNat 10) text).filter (fun l => trimStr l != "") with
  | [] => Except.error "CSV file is empty"
  | first :: rest =>
      Except.ok
        { headers := (splitOnChar ',' first).map (fun h => stripOuterQuotes (trimStr h)),
          rows := rest.map tokenizeLine }

/-!
Part 3 embeds the import reconciler of `ItemMasterCSVUpload.tsx`
(`validateRow`, the `executeUpload` apply loop) and the opening-stock
row processor of the OpeningStock page.  Remote datastore calls are
oracles inside an environment record: each returns either success or an
error message, exactly the two outcomes the code branches on.  The list
of attempted datastore mutations is collected as an explicit trace.
-/

/-- A `categories` row. -/
structure Category where
  id : Nat
  category_name : String
deriving DecidableEq

/-- Conflict-resolution choice offered per conflicting row. -/
inductive ConflictAction
  | skip
  | update
  | error
deriving DecidableEq

/-- A detected conflict: the 1-based display row (data index + 2), the
derived item code, and the chosen action. -/
structure Conflict where
  row : Nat
  item_code : String
  action : ConflictAction
deriving DecidableEq

/-- One CSV data row mapped to the item-master fields (a missing or
empty cell is the empty string, as in the header-to-object mapping). -/
structure RowData where
  item_name : String
  category_name : String
  uom : String
  qualifier : String
  gsm : String
  size_mm : String
  usage_type : String
  status : String
deriving DecidableEq

/-- A recorded per-row apply failure: `{row, message}`. -/
structure ApplyError where
  row : Nat
  message : String
deriving DecidableEq

/-- A row-validation failure: `{row, field, message, data}`. -/
structure ValidationError where
  row : Nat
  field : String
  message : String
  data : RowData
deriving DecidableEq

/-- An attempted datastore mutation, in issue order. -/
inductive Mutation
  | updateItem (item_code : String) (data : RowData)
  | insertItem (item_code : String) (data : RowData)
  | insertStock (item_code : String)
  | insertCategory (category_name : String)
  | upsertItem (item_code item_name : String) (category_id : Option Nat) (uom : String)
  | upsertStock (item_code : String) (qty : ℚ)
  | insertAuditLog (user_id file_name file_type : String)
      (total_rows success_rows error_rows : Nat) (errors : List ApplyError)
deriving DecidableEq

/-- `true` exactly on the `csv_upload_log` audit write. -/
def isAudit : Mutation → Bool
  | Mutation.insertAuditLog _ _ _ _ _ _ _ => true
  | _ => false

/-- The remote boundary used by the item-master apply loop.
`generate_item_code` is the external RPC (its algorithm is out of scope);
the write oracles return `some message` on failure, `none` on success.
The `gsm` argument is marshalled through `parseFloat` in the code; the
oracle receives the raw string (`none` when the cell was empty), which
is at least as discriminating as the parsed number. -/
structure ApplyEnv where
  categories : List Category
  generate_item_code : String → String → String → Option String → Except String String
  update_result : String → RowData → Option String
  insert_result : String → RowData → Option String

/-- `categories.find(cat => cat.category_name.toLowerCase() === name.toLowerCase())`. -/
def findCategory (cats : List Category) (name : String) : Option Category :=
  cats.find? (fun cat => toLowerStr cat.category_name == toLowerStr name)

/-- `conflicts.find(c => c.row === rowIndex)`. -/
def conflictFor (conflicts : List Conflict) (rowIndex : Nat) : Option Conflict :=
  conflicts.find? (fun c => c.row == rowIndex)

/-- The `itemsToProcess` filter: keep a row unless its first matching
conflict is resolved as `skip`. -/
def keepRow (conflicts : List Conflict) (item : RowData × Nat) : Bool :=
  match conflictFor conflicts item.2 with
  | some c => if c.action = ConflictAction.skip then false else true
  | none => true

/-- `item.gsm ? parseFloat(item.gsm) : null`, abstracted to the raw string. -/
def gsmArg (s : String) : Option String :=
  if s = "" then none else some s

/-- The plain-insert path of the apply loop: insert the item; on success
also initialise its stock record (that insert's outcome is not checked). -/
def insertNewItem (env : ApplyEnv) (itemCode : String) (item : RowData × Nat) :
    List Mutation × Option ApplyError :=
  match env.insert_result itemCode item.1 with
  | some msg =>
      ([Mutation.insertItem itemCode item.1],
       some { row := item.2, message := "Error inserting item: " ++ msg })
  | none =>
      ([Mutation.insertItem itemCode item.1, Mutation.insertStock itemCode], none)

/-- Processing of one row inside the apply loop: category lookup, code
generation, then the update branch (only when the row's first matching
conflict is resolved `update`) or the plain-insert path.  Every failure
is caught and returned as `{row, message}` with the row's
`originalRowIndex`. -/
def processItem (env : ApplyEnv) (conflicts : List Conflict) (item : RowData × Nat) :
    List Mutation × Option ApplyError :=
  match findCategory env.categories item.1.category_name with
  | none =>
      ([], some { row := item.2,
                  message := "Category " ++ item.1.category_name ++ " not found" })
  | some category =>
      match env.generate_item_code category.category_name item.1.qualifier
          item.1.size_mm (gsmArg item.1.gsm) with
      | Except.error msg =>
          ([], some { row := item.2, message := "Error generating item code: " ++ msg })
      | Except.ok itemCode =>
          match conflictFor conflicts item.2 with
          | some c =>
              if c.action = ConflictAction.update then
                match env.update_result itemCode item.1 with
                | some msg =>
                    ([Mutation.updateItem itemCode item.1],
                     some { row := item.2, message := "Error updating item: " ++ msg })
                | none => ([Mutation.updateItem itemCode item.1], none)
              else insertNewItem env itemCode item
          | none => insertNewItem env itemCode item

/-- One step of the accumulating apply loop: append the row's mutations,
bump the success counter or push the error record. -/
def stepItem (env : ApplyEnv) (conflicts : List Conflict)
    (acc : List Mutation × Nat × List ApplyError) (item : RowData × Nat) :
    List Mutation × Nat × List ApplyError :=
  let r := processItem env conflicts item
  match r.2 with
  | none => (acc.1 ++ r.1, acc.2.1 + 1, acc.2.2)
  | some e => (acc.1 ++ r.1, acc.2.1, acc.2.2 ++ [e])

/-- Structural chunking worker: `k` is the remaining capacity of the
current batch, `acc` the current batch reversed. -/
def chunks10Go : List α → List α → Nat → List (List α)
  | [], acc, _ => if acc.isEmpty then [] else [acc.reverse]
  | x :: xs, acc, k =>
      if k ≤ 1 then (acc.reverse ++ [x]) :: chunks10Go xs [] 10
      else chunks10Go xs (x :: acc) (k - 1)

/-- The batching of the apply loop (`slice(i, i + 10)` for `i = 0, 10, ...`). -/
def chunks10 (l : List α) : List (List α) :=
  chunks10Go l [] 10

/-- Concatenation of the batches, in order. -/
def flattenChunks : List (List α) → List α
  | [] => []
  | b :: L => b ++ flattenChunks L

/-- The batched apply loop over `itemsToProcess`: mutations issued,
success count, error list. -/
def runBatches (env : ApplyEnv) (conflicts : List Conflict)
    (items : List (RowData × Nat)) : List Mutation × Nat × List ApplyError :=
  (chunks10 items).foldl (fun acc batch => batch.foldl (stepItem env conflicts) acc)
    ([], 0, [])

/-- The mutations of a row list, row by row in order (closed form of the
first component of `runBatches`). -/
def rowMutations (env : ApplyEnv) (conflicts : List Conflict) :
    List (RowData × Nat) → List Mutation
  | [] => []
  | it :: rest => (processItem env conflicts it).1 ++ rowMutations env conflicts rest

/-- `dataObjects`: pair each parsed row with `originalRowIndex = index + 2`. -/
def withRowIndexFrom (k : Nat) : List RowData → List (RowData × Nat)
  | [] => []
  | r :: rs => (r, k) :: withRowIndexFrom (k + 1) rs

/-- `dataObjects` built from the parsed data rows. -/
def withRowIndex (rows : List RowData) : List (RowData × Nat) :=
  withRowIndexFrom 2 rows

/-- The completion audit write: one `csv_upload_log` insert when a user
session exists, nothing otherwise. -/
def auditMutations (user : Option String) (fileName : String)
    (total success_rows : Nat) (errs : List ApplyError) : List Mutation :=
  match user with
  | some uid =>
      [Mutation.insertAuditLog uid fileName "item_master" total success_rows errs.length errs]
  | none => []

/-- The reported upload result `{success, errors, total}`. -/
structure UploadResult where
  success : Nat
  errors : List ApplyError
  total : Nat
deriving DecidableEq

/-- `executeUpload`: build `dataObjects`, drop rows whose first matching
conflict is `skip`, run the batched apply loop, perform the audit write
(whose outcome `_auditResult` the code never reads), and report
`{success, errors, total = number of parsed data rows}` together with
the trace of attempted mutations. -/
def executeUpload (env : ApplyEnv) (conflicts : List Conflict) (rows : List RowData)
    (user : Option String) (fileName : String) (_auditResult : Option String) :
    UploadResult × List Mutation :=
  let r := runBatches env conflicts ((withRowIndex rows).filter (keepRow conflicts))
  ({ success := r.2.1, errors := r.2.2, total := rows.length },
   r.1 ++ auditMutations user fileName rows.length r.2.1 r.2.2)

/-- JavaScript `isNaN(parseFloat(s))`: `true` when `s` has no leading
numeric prefix (after leading whitespace, an optional sign followed by a
digit, a dot-digit, or the literal `Infinity`).  Only NaN-ness is
modelled; the parsed value itself is irrelevant to validation. -/
def parseFloatNaN (s : String) : Bool :=
  match (trimStr s).toList with
  | [] => true
  | c :: cs =>
    let rest := if c = '+' ∨ c = '-' then cs else c :: cs
    match rest with
    | [] => true
    | d :: ds =>
      if d.isDigit then false
      else if d = '.' then
        match ds with
        | [] => true
        | e :: _ => !e.isDigit
      else if rest.take 8 = ['I', 'n', 'f', 'i', 'n', 'i', 't', 'y'] then false
      else true

/-- The item_name check of `validateRow`. -/
def itemNameErrs (rowData : RowData) (rowIndex : Nat) : List ValidationError :=
  if trimStr rowData.item_name = "" then
    [{ row := rowIndex + 2, field := "item_name",
       message := "Item name is required", data := rowData }]
  else []

/-- The category_name check of `validateRow`: required, and when present
it must match an existing category case-insensitively. -/
def categoryErrs (categories : List Category) (rowData : RowData) (rowIndex : Nat) :
    List ValidationError :=
  if trimStr rowData.category_name = "" then
    [{ row := rowIndex + 2, field := "category_name",
       message := "Category name is required", data := rowData }]
  else
    match findCategory categories rowData.category_name with
    | none => [{ row := rowIndex + 2, field := "category_name",
                 message := "Category does not exist: " ++ rowData.category_name,
                 data := rowData }]
    | some _ => []

/-- The uom check of `validateRow`. -/
def uomErrs (rowData : RowData) (rowIndex : Nat) : List ValidationError :=
  if trimStr rowData.uom = "" then
    [{ row := rowIndex + 2, field := "uom",
       message := "UOM is required", data := rowData }]
  else []

/-- The gsm check of `validateRow`: when present it must parse. -/
def gsmErrs (rowData : RowData) (rowIndex : Nat) : List ValidationError :=
  if rowData.gsm ≠ "" ∧ parseFloatNaN rowData.gsm = true then
    [{ row := rowIndex + 2, field := "gsm",
       message := "GSM must be a valid number", data := rowData }]
  else []

/-- The status check of `validateRow`: when present it must be active or
inactive, case-insensitively. -/
def statusErrs (rowData : RowData) (rowIndex : Nat) : List ValidationError :=
  if rowData.status ≠ "" ∧
      ¬(toLowerStr rowData.status = "active" ∨ toLowerStr rowData.status = "inactive") then
    [{ row := rowIndex + 2, field := "status",
       message := "Status must be active or inactive", data := rowData }]
  else []

/-- `validateRow` of `ItemMasterCSVUpload.tsx`: the five independent
field checks run in order, each pushing its own error with display row
`rowIndex + 2`; the results are concatenated, never short-circuited. -/
def validateRow (categories : List Category) (rowData : RowData) (rowIndex : Nat) :
    List ValidationError :=
  itemNameErrs rowData rowIndex ++ categoryErrs categories rowData rowIndex ++
    uomErrs rowData rowIndex ++ gsmErrs rowData rowIndex ++ statusErrs rowData rowIndex

/-- One opening-stock CSV row (absent cells are the empty string). -/
structure OpeningRow where
  item_code : String
  item_name : String
  category : String
  opening_qty : String
  uom : String
deriving DecidableEq

/-- The remote boundary of the opening-stock import: `insert_category`
returns the new category id or an error, the upserts return `some
message` on failure. -/
structure OpeningEnv where
  categories : List Category
  insert_category : String → Except String Nat
  upsert_item : String → String → Option Nat → String → Option String
  upsert_stock : String → ℚ → Option String

/-- `ILIKE` lookup of a category name; for patterns without wildcard
characters (the only case the claims exercise) `ILIKE` is
case-insensitive equality. -/
def ilikeMatches (cats : List Category) (pat : String) : List Category :=
  cats.filter (fun c => toLowerStr c.category_name == toLowerStr pat)

/-- `.single()` on the lookup: exactly one matching row, else `null`. -/
def lookupSingle (cats : List Category) (pat : String) : Option Category :=
  match ilikeMatches cats pat with
  | [c] => some c
  | _ => none

/-- JavaScript `a || b` on strings. -/
def jsOr (a b : String) : String := if a = "" then b else a

/-- Decimal digits to a natural number. -/
def digitsToNat (cs : List Char) : Nat :=
  cs.foldl (fun n c => n * 10 + (c.toNat - 48)) 0

/-- The leading decimal prefix of a string as an exact rational, `none`
when there is none (`parseFloat` NaN).  Exponents and the binary
rounding of JavaScript numbers are elided; no claim depends on them. -/
def parsePrefixRat (s : String) : Option ℚ :=
  let cs := (trimStr s).toList
  let signed := match cs with
    | c :: rest =>
        if c = '-' then ((-1 : ℚ), rest)
        else if c = '+' then ((1 : ℚ), rest)
        else ((1 : ℚ), cs)
    | [] => ((1 : ℚ), [])
  let ip := signed.2.takeWhile Char.isDigit
  let rest2 := signed.2.drop ip.length
  let fp := match rest2 with
    | c :: restf => if c = '.' then restf.takeWhile Char.isDigit else []
    | [] => []
  if ip = [] ∧ fp = [] then none
  else some (signed.1 * ((digitsToNat ip : ℚ) + (digitsToNat fp : ℚ) / (10 : ℚ) ^ fp.length))

/-- `parseFloat(row.opening_qty) || 0`. -/
def openingQtyOf (s : String) : ℚ := (parsePrefixRat s).getD 0

/-- The category find-or-create step of the opening-stock import: an
empty category cell yields no category id; a unique `ILIKE` match is
reused; otherwise the category is inserted (`Auto-created from CSV
import`), and only that insert's failure aborts the row. -/
def findOrCreateCategory (env : OpeningEnv) (cat : String) :
    Except String (Option Nat × List Mutation) :=
  if cat = "" then Except.ok (none, [])
  else
    match lookupSingle env.categories cat with
    | some c => Except.ok (some c.id, [])
    | none =>
      match env.insert_category cat with
      | Except.error msg => Except.error msg
      | Except.ok newId => Except.ok (some newId, [Mutation.insertCategory cat])

/-- One row of `processOpeningStock`: find-or-create the category, then
upsert the item master and the stock record; any failure is caught and
recorded as `{row = i + 1, message}`. -/
def processOpeningStockRow (env : OpeningEnv) (row : OpeningRow) (i : Nat) :
    List Mutation × Option ApplyError :=
  match findOrCreateCategory env row.category with
  | Except.error msg => ([], some { row := i + 1, message := msg })
  | Except.ok (categoryId, muts) =>
    match env.upsert_item row.item_code (jsOr row.item_name row.item_code)
        categoryId (jsOr row.uom "PCS") with
    | some msg =>
        (muts ++ [Mutation.upsertItem row.item_code (jsOr row.item_name row.item_code)
          categoryId (jsOr row.uom "PCS")],
         some { row := i + 1, message := msg })
    | none =>
      match env.upsert_stock row.item_code (openingQtyOf row.opening_qty) with
      | some msg =>
          (muts ++ [Mutation.upsertItem row.item_code (jsOr row.item_name row.item_code)
            categoryId (jsOr row.uom "PCS"),
            Mutation.upsertStock row.item_code (openingQtyOf row.opening_qty)],
           some { row := i + 1, message := msg })
      | none =>
          (muts ++ [Mutation.upsertItem row.item_code (jsOr row.item_name row.item_code)
            categoryId (jsOr row.uom "PCS"),
            Mutation.upsertStock row.item_code (openingQtyOf row.opening_qty)],
           none)

/-- Concrete environment whose item insert always fails with a
duplicate-key message. -/
def envDup : ApplyEnv :=
  { categories := [{ id := 1, category_name := "Raw Materials" }],
    generate_item_code := fun _ _ _ _ => Except.ok "RAW_80",
    update_result := fun _ _ => none,
    insert_result := fun _ _ => some "duplicate key value" }

/-- Concrete valid row in the Raw Materials category. -/
def rowX : RowData :=
  { item_name := "Item A", category_name := "Raw Materials", uom := "PCS",
    qualifier := "", gsm := "", size_mm := "", usage_type := "", status := "" }

/-- Conflict on display row 2 resolved as `error`. -/
def conErr : Conflict := { row := 2, item_code := "RAW_80", action := ConflictAction.error }

/-- Conflict on display row 2 resolved as `skip`. -/
def conSkip : Conflict := { row := 2, item_code := "RAW_80", action := ConflictAction.skip }

/-- Eleven indexed copies of the valid row: two batches (ten plus one). -/
def items11 : List (RowData × Nat) := List.replicate 11 (rowX, 2)

/-- The apply error `envDup` produces for row 2. -/
def errDup : ApplyError := { row := 2, message := "Error inserting item: duplicate key value" }

/-- Categories containing only Packaging. -/
def catsP : List Category := [{ id := 1, category_name := "Packaging" }]

/-- Concrete invalid row: empty name and uom, unknown category,
non-numeric gsm, invalid status. -/
def rowBad : RowData :=
  { item_name := "", category_name := "Unknown Cat", uom := "",
    qualifier := "", gsm := "abc", size_mm := "", usage_type := "", status := "maybe" }

/-- Concrete opening-stock environment: only Packaging exists, category
insert succeeds with id 7, upserts succeed. -/
def openEnvW : OpeningEnv :=
  { categories := catsP,
    insert_category := fun _ => Except.ok 7,
    upsert_item := fun _ _ _ _ => none,
    upsert_stock := fun _ _ => none }

/-- Concrete opening-stock row in the (absent) Raw Materials category. -/
def orowW : OpeningRow :=
  { item_code := "RAW001", item_name := "Raw Material 1",
    category := "Raw Materials", opening_qty := "100", uom := "KG" }

/-- Concrete environment in which both insert and update succeed. -/
def envU : ApplyEnv :=
  { categories := [{ id := 1, category_name := "Raw Materials" }],
    generate_item_code := fun _ _ _ _ => Except.ok "RAW_80",
    update_result := fun _ _ => none,
    insert_result := fun _ _ => none }

/-- Conflict on display row 3 resolved as `update`. -/
def conUpd : Conflict := { row := 3, item_code := "RAW_80", action := ConflictAction.update }

/-- Two parsed data rows (display rows 2 and 3). -/
def rows2 : List RowData := [rowX, rowX]

/-- Mixed resolution: row 2 `skip`, row 3 `update`. -/
def cs2 : List Conflict := [conSkip, conUpd]

/-!
The theorems: each claim of the specification, settled against the
definitions above.
-/

/-- Claim C5: `calculated_qty` reconciles opening stock with the coalesced
all-time totals, and `stock_validation_status` is MISMATCH exactly when
the absolute deviation from `current_qty` exceeds 0.01, OK otherwise. -/
theorem stock_validation_spec (r : StockSourceRow) :
    calculated_qty r = r.opening_qty + r.total_grn_qty.getD 0 - r.total_issued_qty.getD 0 ∧
    (stock_validation_status r = "MISMATCH" ↔ |calculated_qty r - r.current_qty| > 1/100) ∧
    (stock_validation_status r = "OK" ↔ ¬ |calculated_qty r - r.current_qty| > 1/100) := by
  have hne : ("MISMATCH" : String) ≠ "OK" := by decide
  refine ⟨rfl, ?_, ?_⟩ <;> unfold stock_validation_status <;> split <;>
    simp_all

/-- Claim C6: each window's consumption rate equals the specification's
formula (3-decimal-rounded `issue / w` when positive, else 0), and a zero
coalesced issue quantity yields a zero rate. -/
theorem consumption_rate_spec (r : StockSourceRow) :
    consumption_rate_7d r = spec_consumption_rate 7 (r.issue_7d.getD 0) ∧
    consumption_rate_30d r = spec_consumption_rate 30 (r.issue_30d.getD 0) ∧
    consumption_rate_90d r = spec_consumption_rate 90 (r.issue_90d.getD 0) ∧
    (r.issue_7d.getD 0 = 0 → consumption_rate_7d r = 0) ∧
    (r.issue_30d.getD 0 = 0 → consumption_rate_30d r = 0) ∧
    (r.issue_90d.getD 0 = 0 → consumption_rate_90d r = 0) := by
  refine ⟨rfl, rfl, rfl, ?_, ?_, ?_⟩ <;> intro h <;>
    simp [consumption_rate_7d, consumption_rate_30d, consumption_rate_90d,
      consumption_rate_window, h]

/-- Witness for C6 at a concrete row with no 30-day consumption. -/
theorem consumption_rate_spec_witness :
    consumption_rate_30d c1Row = spec_consumption_rate 30 7 ∧
    consumption_rate_7d c1Row = 0 :=
  ⟨(consumption_rate_spec c1Row).2.1, (consumption_rate_spec c1Row).2.2.2.1 rfl⟩

/-- Claim C1 counterexample: with 1000 units in stock and 7 units issued
over 30 days, the view computes `ROUND(1000 / (7 / 30), 1) = 4285.7`, but
dividing by the 3-decimal-rounded rate as the claim states gives
`ROUND(1000 / 0.233, 1) = 4291.8`.  Moreover with positive stock and a
negative 30-day issue total the view's second guard
`COALESCE(issue, 0) = 0` fails, so the view returns 0 where the claim's
plain `current_qty > 0` branch demands the 999999 sentinel. -/
theorem days_of_cover_rounded_rate_counterexample :
    days_of_cover c1Row = 42857/10 ∧
    claimed_days_of_cover 30 c1Row.current_qty 7 = 21459/5 ∧
    (42857/10 : ℚ) ≠ 21459/5 ∧
    days_of_cover c1RowNeg = 0 ∧
    claimed_days_of_cover 30 c1RowNeg.current_qty (-1) = 999999 ∧
    (0 : ℚ) ≠ 999999 := by
  have hround : ∀ x : ℚ, 0 ≤ x → ∀ d : Nat, roundTo d x = (⌊x * (10:ℚ)^d + 1/2⌋ : ℚ) / (10:ℚ)^d := by
    intro x hx d
    simp only [roundTo, roundHalfAway]
    rw [if_pos (by positivity)]
  have hf1 : ⌊(14030:ℚ)/60⌋ = 233 := by rw [Int.floor_eq_iff]; norm_num
  have hf2 : ⌊(600007:ℚ)/14⌋ = 42857 := by rw [Int.floor_eq_iff]; norm_num
  have hf3 : ⌊(20000233:ℚ)/466⌋ = 42918 := by rw [Int.floor_eq_iff]; norm_num
  have hin : roundTo 3 (7/30 : ℚ) = 233/1000 := by
    rw [hround _ (by norm_num)]
    rw [show ((7:ℚ)/30 * (10:ℚ)^3 + 1/2 : ℚ) = 14030/60 by norm_num, hf1]
    norm_num
  refine ⟨?_, ?_, by norm_num, ?_, ?_, by norm_num⟩
  · simp only [days_of_cover, days_of_cover_window, c1Row, Option.getD]
    rw [if_pos (by norm_num), hround _ (by norm_num)]
    rw [show ((1000:ℚ) / (7 / 30) * (10:ℚ)^1 + 1/2 : ℚ) = 600007/14 by norm_num, hf2]
    norm_num
  · simp only [claimed_days_of_cover, c1Row]
    rw [if_pos (by norm_num), hin, hround _ (by norm_num)]
    rw [show ((1000:ℚ) / (233/1000) * (10:ℚ)^1 + 1/2 : ℚ) = 20000233/466 by norm_num, hf3]
    norm_num
  · simp only [days_of_cover, days_of_cover_window, c1RowNeg, Option.getD]
    rw [if_neg (by norm_num), if_neg (by norm_num)]
  · simp only [claimed_days_of_cover, c1RowNeg]
    rw [if_neg (by norm_num), if_pos (by norm_num)]

/-- Claim C1 as amended: for every stock summary row and every window,
days of cover is `ROUND` of the current quantity divided by the
*unrounded* rate `issue_W / W` when `issue_W > 0`; otherwise the 999999
sentinel exactly when stock is positive and the coalesced issue total is
zero, else 0; the primary field follows the 30-day window. -/
theorem days_of_cover_amended (r : StockSourceRow) :
    days_of_cover r = amended_days_of_cover 30 r.current_qty (r.issue_30d.getD 0) ∧
    days_of_cover_7d r = amended_days_of_cover 7 r.current_qty (r.issue_7d.getD 0) ∧
    days_of_cover_90d r = amended_days_of_cover 90 r.current_qty (r.issue_90d.getD 0) := by
  refine ⟨?_, ?_, ?_⟩ <;>
    simp only [days_of_cover, days_of_cover_7d, days_of_cover_90d,
      days_of_cover_window, amended_days_of_cover, div_div_eq_mul_div]

/-- Claim C7 counterexample: a quoted header cell containing a comma.
The header line is split on the embedded comma (the quote-aware
tokenizer is only applied to data rows), so the parsed headers differ
from what the claimed tokenization would produce. -/
theorem parse_csv_header_counterexample :
    parseCSV "\"a,b\",c\n1,2" = Except.ok ⟨["a", "b", "c"], [["1", "2"]]⟩ ∧
    tokenizeLine "\"a,b\",c" = ["a,b", "c"] ∧
    (["a", "b", "c"] : List String) ≠ ["a,b", "c"] := by
  refine ⟨rfl, by decide, by decide⟩

/-- Claim C7 as amended: parsing fails (with the parse error) exactly
when the input has zero non-blank lines; on success the data rows are
produced by the quote-aware comma tokenizer, while the header row is
split on every comma regardless of quotes, each header being trimmed and
stripped of one outer quote pair. -/
theorem parse_csv_spec (text : String) :
    ((∃ msg, parseCSV text = Except.error msg) ↔
      (splitOnChar (Char.ofNat 10) text).filter (fun l => trimStr l != "") = []) ∧
    (∀ first rest,
      (splitOnChar (Char.ofNat 10) text).filter (fun l => trimStr l != "") = first :: rest →
      parseCSV text = Except.ok
        { headers := (splitOnChar ',' first).map (fun h => stripOuterQuotes (trimStr h)),
          rows := rest.map tokenizeLine }) := by
  unfold parseCSV
  cases h : (splitOnChar (Char.ofNat 10) text).filter (fun l => trimStr l != "") with
  | nil => simp
  | cons first rest => simp

/-- Unfolding of the chunking worker: with capacity `k + 1` and a
nonempty input, the next batch is the pending accumulator followed by
the first `k + 1` elements. -/
theorem chunks10Go_spec :
    ∀ (l acc : List α) (k : Nat), l ≠ [] →
    chunks10Go l acc (k + 1) =
      (acc.reverse ++ l.take (k + 1)) :: chunks10Go (l.drop (k + 1)) [] 10 := by
  intro l
  induction l with
  | nil => intro acc k h; exact absurd rfl h
  | cons x xs ih =>
    intro acc k _
    cases k with
    | zero =>
      simp [chunks10Go]
    | succ j =>
      rw [chunks10Go]
      rw [if_neg (by omega)]
      rw [show j + 1 + 1 - 1 = j + 1 by omega]
      by_cases hxs : xs = []
      · subst hxs
        simp [chunks10Go]
      · rw [ih (x :: acc) j hxs]
        simp [List.take_succ_cons, List.drop_succ_cons]
  -- the recursion below each batch restarts with capacity 10

/-- `chunks10` on the empty list. -/
theorem chunks10_nil : chunks10 ([] : List α) = [] := rfl

/-- `chunks10` peels off the first batch of (up to) ten elements. -/
theorem chunks10_cons (x : α) (xs : List α) :
    chunks10 (x :: xs) = (x :: xs).take 10 :: chunks10 (xs.drop 9) := by
  have h := chunks10Go_spec (x :: xs) [] 9 (by simp)
  simpa [chunks10, List.drop_succ_cons] using h

/-- The first ten elements followed by the rest restore the list. -/
theorem take10_drop9 (x : α) (xs : List α) :
    (x :: xs).take 10 ++ xs.drop 9 = x :: xs := by
  rw [show (10 : Nat) = 9 + 1 from rfl, List.take_succ_cons, List.cons_append,
    List.take_append_drop]

/-- Flattening the batches restores the row list: batching preserves
input order within and across batches. -/
theorem flattenChunks_chunks10 : ∀ l : List α, flattenChunks (chunks10 l) = l
  | [] => by rw [chunks10_nil]; rfl
  | x :: xs => by
    rw [chunks10_cons]
    have ih := flattenChunks_chunks10 (xs.drop 9)
    show (x :: xs).take 10 ++ flattenChunks (chunks10 (xs.drop 9)) = x :: xs
    rw [ih, take10_drop9]
termination_by l => l.length
decreasing_by simp; omega

/-- Every batch is nonempty and holds at most ten rows. -/
theorem chunks10_mem_bound : ∀ (l b : List α), b ∈ chunks10 l → b ≠ [] ∧ b.length ≤ 10
  | [], b, hb => by rw [chunks10_nil] at hb; cases hb
  | x :: xs, b, hb => by
    rw [chunks10_cons] at hb
    rcases List.mem_cons.mp hb with h | h
    · subst h
      refine ⟨by simp, ?_⟩
      simp [List.length_take]
    · exact chunks10_mem_bound (xs.drop 9) b h
termination_by l _ _ => l.length
decreasing_by simp; omega

/-- Every batch except possibly the last holds exactly ten rows. -/
theorem chunks10_full :
    ∀ (l : List α) (i : Nat), i + 1 < (chunks10 l).length →
    ∃ b, (chunks10 l).get? i = some b ∧ b.length = 10
  | [], i, h => by rw [chunks10_nil] at h; simp at h
  | x :: xs, i, h => by
    rw [chunks10_cons] at h ⊢
    cases i with
    | zero =>
      refine ⟨(x :: xs).take 10, rfl, ?_⟩
      have hrest : chunks10 (xs.drop 9) ≠ [] := by
        intro hnil
        rw [hnil] at h
        simp at h
      have hxs : xs.drop 9 ≠ [] := by
        intro hnil
        rw [hnil, chunks10_nil] at hrest
        exact hrest rfl
      have hlen : 9 < xs.length := List.length_lt_of_drop_ne_nil hxs
      simp [List.length_take]
      omega
    | succ j =>
      have hj : j + 1 < (chunks10 (xs.drop 9)).length := by
        simpa using h
      simpa using chunks10_full (xs.drop 9) j hj
termination_by l _ _ => l.length
decreasing_by simp; omega

/-- Folding batch-by-batch equals folding the flat list. -/
theorem foldl_chunks (f : σ → β → σ) :
    ∀ (l : List β) (init : σ),
    (chunks10 l).foldl (fun acc b => b.foldl f acc) init = l.foldl f init
  | [], init => by rw [chunks10_nil]; rfl
  | x :: xs, init => by
    rw [chunks10_cons, List.foldl_cons]
    rw [foldl_chunks f (xs.drop 9) (((x :: xs).take 10).foldl f init)]
    rw [← List.foldl_append, take10_drop9]
termination_by l _ => l.length
decreasing_by simp; omega

/-- Closed form of the accumulating apply fold: mutations, success count
and error list of a row list, each a pointwise function of the rows. -/
theorem foldl_step_spec (env : ApplyEnv) (cs : List Conflict) :
    ∀ (items : List (RowData × Nat)) (m0 : List Mutation) (s0 : Nat) (e0 : List ApplyError),
    items.foldl (stepItem env cs) (m0, s0, e0) =
      (m0 ++ rowMutations env cs items,
       s0 + items.countP (fun it => ((processItem env cs it).2).isNone),
       e0 ++ items.filterMap (fun it => (processItem env cs it).2)) := by
  intro items
  induction items with
  | nil => intro m0 s0 e0; simp [rowMutations]
  | cons it rest ih =>
    intro m0 s0 e0
    rw [List.foldl_cons]
    cases h : (processItem env cs it).2 with
    | none =>
      rw [show stepItem env cs (m0, s0, e0) it = (m0 ++ (processItem env cs it).1, s0 + 1, e0) by
        simp [stepItem, h]]
      rw [ih]
      refine Prod.ext ?_ (Prod.ext ?_ ?_)
      · simp [rowMutations, List.append_assoc]
      · simp [List.countP_cons, h]
        omega
      · simp [List.filterMap_cons, h]
    | some e =>
      rw [show stepItem env cs (m0, s0, e0) it = (m0 ++ (processItem env cs it).1, s0, e0 ++ [e]) by
        simp [stepItem, h]]
      rw [ih]
      refine Prod.ext ?_ (Prod.ext ?_ ?_)
      · simp [rowMutations, List.append_assoc]
      · simp [List.countP_cons, h]
      · simp [List.filterMap_cons, h, List.append_assoc]

/-- The batched apply loop, in closed form. -/
theorem runBatches_spec (env : ApplyEnv) (cs : List Conflict) (items : List (RowData × Nat)) :
    runBatches env cs items =
      (rowMutations env cs items,
       items.countP (fun it => ((processItem env cs it).2).isNone),
       items.filterMap (fun it => (processItem env cs it).2)) := by
  unfold runBatches
  rw [foldl_chunks (stepItem env cs) items ([], 0, [])]
  rw [foldl_step_spec env cs items [] 0 []]
  simp

/-- Counting surviving rows plus failed rows gives back all rows. -/
theorem countP_isNone_add_filterMap (f : β → Option γ) :
    ∀ l : List β, l.countP (fun b => (f b).isNone) + (l.filterMap f).length = l.length := by
  intro l
  induction l with
  | nil => simp
  | cons b rest ih =>
    cases h : f b with
    | none => simp [List.countP_cons, List.filterMap_cons, h]; omega
    | some c => simp [List.countP_cons, List.filterMap_cons, h]; omega

/-- Every error recorded by the row processor carries that row's
`originalRowIndex`. -/
theorem processItem_err_row (env : ApplyEnv) (cs : List Conflict)
    (it : RowData × Nat) (err : ApplyError)
    (h : (processItem env cs it).2 = some err) : err.row = it.2 := by
  unfold processItem insertNewItem at h
  repeat' split at h
  all_goals simp_all
  all_goals subst h
  all_goals rfl

/-- The row processor never issues the audit write. -/
theorem processItem_no_audit (env : ApplyEnv) (cs : List Conflict)
    (it : RowData × Nat) (m : Mutation)
    (hm : m ∈ (processItem env cs it).1) : isAudit m = false := by
  unfold processItem insertNewItem at hm
  repeat' split at hm
  all_goals simp_all [isAudit]
  all_goals rcases hm with h | h
  all_goals subst h
  all_goals rfl

/-- No audit write appears among the apply loop's row mutations. -/
theorem rowMutations_no_audit (env : ApplyEnv) (cs : List Conflict) :
    ∀ (items : List (RowData × Nat)) (m : Mutation),
    m ∈ rowMutations env cs items → isAudit m = false := by
  intro items
  induction items with
  | nil => intro m hm; simp [rowMutations] at hm
  | cons it rest ih =>
    intro m hm
    rcases List.mem_append.mp (by simpa [rowMutations] using hm) with h | h
    · exact processItem_no_audit env cs it m h
    · exact ih m h

/-- No audit write appears among the apply loop's issued mutations. -/
theorem filter_isAudit_runBatches (env : ApplyEnv) (cs : List Conflict)
    (items : List (RowData × Nat)) :
    ((runBatches env cs items).1).filter isAudit = [] := by
  rw [runBatches_spec]
  rw [List.filter_eq_nil_iff]
  intro m hm
  simp [rowMutations_no_audit env cs items m hm]

/-- Claim C2: the batched apply loop processes every row to exactly one
outcome — the success count plus the error count is the row count, the
error list is the pointwise (order-preserving) collection of the failed
rows' `{row, message}` records, and each record carries its own row's
index — while the batching splits the rows into consecutive batches of
ten (the last possibly shorter) whose concatenation is the input. -/
theorem apply_per_row_isolation_and_batching (env : ApplyEnv) (cs : List Conflict)
    (items : List (RowData × Nat)) :
    (runBatches env cs items).2.1 + (runBatches env cs items).2.2.length = items.length ∧
    (runBatches env cs items).2.2 = items.filterMap (fun it => (processItem env cs it).2) ∧
    (∀ it err, (processItem env cs it).2 = some err → err.row = it.2) ∧
    flattenChunks (chunks10 items) = items ∧
    (∀ b ∈ chunks10 items, b ≠ [] ∧ b.length ≤ 10) ∧
    (∀ i, i + 1 < (chunks10 items).length →
      ∃ b, (chunks10 items).get? i = some b ∧ b.length = 10) := by
  refine ⟨?_, ?_, ?_, flattenChunks_chunks10 items,
    fun b hb => chunks10_mem_bound items b hb,
    fun i hi => chunks10_full items i hi⟩
  · rw [runBatches_spec]
    exact countP_isNone_add_filterMap _ items
  · rw [runBatches_spec]
  · intro it err h
    exact processItem_err_row env cs it err h

/-- Claim C10: a conflicting row resolved as `error` survives the
`itemsToProcess` filter and is processed exactly as a row with no
conflict at all, i.e. through the plain-insert path. -/
theorem conflict_error_goes_insert_path (env : ApplyEnv) (cs : List Conflict)
    (it : RowData × Nat) (c : Conflict)
    (h1 : conflictFor cs it.2 = some c) (h2 : c.action = ConflictAction.error) :
    keepRow cs it = true ∧ processItem env cs it = processItem env [] it := by
  constructor
  · simp [keepRow, h1, h2]
  · unfold processItem
    rw [h1, show conflictFor ([] : List Conflict) it.2 = none from rfl]
    simp [h2]

/-- Claim C3: a row whose first matching conflict is resolved `skip` is
dropped by the `itemsToProcess` filter, and — for any mix of
resolutions — the reported success count, error list and mutation trace
are pointwise functions of the surviving rows alone, while `total`
counts every parsed row; consequently an all-skip run reports
`{0, [], total}` and issues at most the audit write. -/
theorem skip_rows_are_noops (env : ApplyEnv) (cs : List Conflict) (rows : List RowData)
    (user : Option String) (fileName : String) (auditResult : Option String) :
    (∀ item ∈ withRowIndex rows,
      (∃ c, conflictFor cs item.2 = some c ∧ c.action = ConflictAction.skip) →
        keepRow cs item = false) ∧
    (executeUpload env cs rows user fileName auditResult).1.success =
      ((withRowIndex rows).filter (keepRow cs)).countP
        (fun it => ((processItem env cs it).2).isNone) ∧
    (executeUpload env cs rows user fileName auditResult).1.errors =
      ((withRowIndex rows).filter (keepRow cs)).filterMap
        (fun it => (processItem env cs it).2) ∧
    (executeUpload env cs rows user fileName auditResult).1.total = rows.length ∧
    (executeUpload env cs rows user fileName auditResult).2 =
      rowMutations env cs ((withRowIndex rows).filter (keepRow cs)) ++
        auditMutations user fileName rows.length
          (((withRowIndex rows).filter (keepRow cs)).countP
            (fun it => ((processItem env cs it).2).isNone))
          (((withRowIndex rows).filter (keepRow cs)).filterMap
            (fun it => (processItem env cs it).2)) ∧
    ((∀ item ∈ withRowIndex rows,
        ∃ c, conflictFor cs item.2 = some c ∧ c.action = ConflictAction.skip) →
      (executeUpload env cs rows user fileName auditResult).1 =
        { success := 0, errors := [], total := rows.length } ∧
      ∀ m ∈ (executeUpload env cs rows user fileName auditResult).2, isAudit m = true) := by
  refine ⟨?_, ?_, ?_, rfl, ?_, ?_⟩
  · intro item _ hsk
    obtain ⟨c, hc, hskip⟩ := hsk
    simp [keepRow, hc, hskip]
  · simp [executeUpload, runBatches_spec]
  · simp [executeUpload, runBatches_spec]
  · simp [executeUpload, runBatches_spec]
  · intro h
    have hfil : (withRowIndex rows).filter (keepRow cs) = [] := by
      rw [List.filter_eq_nil_iff]
      intro it hit
      obtain ⟨c, hc, hskip⟩ := h it hit
      simp [keepRow, hc, hskip]
    have hrun : runBatches env cs ((withRowIndex rows).filter (keepRow cs)) = ([], 0, []) := by
      rw [hfil, runBatches_spec]
      simp [rowMutations]
    constructor
    · simp [executeUpload, hrun]
    · intro m hm
      simp only [executeUpload, hrun] at hm
      cases user with
      | none => simp [auditMutations] at hm
      | some uid =>
        simp [auditMutations] at hm
        subst hm
        rfl

/-- Claim C9 as amended: the reported `{success, errors, total}` is
independent of the audit write's outcome; when a user session exists
exactly one audit write (carrying the file name, the `item_master` type,
the row counts and the error list) is issued, and with no session none
is. -/
theorem audit_log_spec (env : ApplyEnv) (cs : List Conflict) (rows : List RowData)
    (user : Option String) (fileName : String) (a b : Option String) :
    (executeUpload env cs rows user fileName a).1 = (executeUpload env cs rows user fileName b).1 ∧
    ((executeUpload env cs rows user fileName a).2.filter isAudit).length =
      (if user.isSome then 1 else 0) ∧
    (∀ uid, user = some uid →
      (executeUpload env cs rows user fileName a).2.filter isAudit =
        [Mutation.insertAuditLog uid fileName "item_master" rows.length
          (executeUpload env cs rows user fileName a).1.success
          (executeUpload env cs rows user fileName a).1.errors.length
          (executeUpload env cs rows user fileName a).1.errors]) := by
  refine ⟨rfl, ?_, ?_⟩
  · simp only [executeUpload]
    rw [List.filter_append, filter_isAudit_runBatches]
    cases user with
    | none => simp [auditMutations]
    | some uid => simp [auditMutations, isAudit]
  · intro uid huser
    subst huser
    simp only [executeUpload]
    rw [List.filter_append, filter_isAudit_runBatches]
    simp [auditMutations, isAudit]

/-- Shape of the item_name check: the error, when present, carries the
display row and the item_name field, and it is present exactly when the
trimmed name is empty. -/
theorem itemNameErrs_shape (r : RowData) (i : Nat) :
    (∀ e ∈ itemNameErrs r i, e.row = i + 2 ∧ e.field = "item_name") ∧
    ((∃ e ∈ itemNameErrs r i, e.field = "item_name") ↔ trimStr r.item_name = "") := by
  unfold itemNameErrs
  split <;> simp_all

/-- Shape of the category_name check: present exactly when the name is
blank or matches no existing category case-insensitively. -/
theorem categoryErrs_shape (cats : List Category) (r : RowData) (i : Nat) :
    (∀ e ∈ categoryErrs cats r i, e.row = i + 2 ∧ e.field = "category_name") ∧
    ((∃ e ∈ categoryErrs cats r i, e.field = "category_name") ↔
      (trimStr r.category_name = "" ∨ findCategory cats r.category_name = none)) := by
  unfold categoryErrs
  split
  · simp_all
  · cases hf : findCategory cats r.category_name <;> simp_all

/-- Shape of the uom check. -/
theorem uomErrs_shape (r : RowData) (i : Nat) :
    (∀ e ∈ uomErrs r i, e.row = i + 2 ∧ e.field = "uom") ∧
    ((∃ e ∈ uomErrs r i, e.field = "uom") ↔ trimStr r.uom = "") := by
  unfold uomErrs
  split <;> simp_all

/-- Shape of the gsm check. -/
theorem gsmErrs_shape (r : RowData) (i : Nat) :
    (∀ e ∈ gsmErrs r i, e.row = i + 2 ∧ e.field = "gsm") ∧
    ((∃ e ∈ gsmErrs r i, e.field = "gsm") ↔
      (r.gsm ≠ "" ∧ parseFloatNaN r.gsm = true)) := by
  unfold gsmErrs
  split <;> simp_all

/-- Shape of the status check. -/
theorem statusErrs_shape (r : RowData) (i : Nat) :
    (∀ e ∈ statusErrs r i, e.row = i + 2 ∧ e.field = "status") ∧
    ((∃ e ∈ statusErrs r i, e.field = "status") ↔
      (r.status ≠ "" ∧
        ¬(toLowerStr r.status = "active" ∨ toLowerStr r.status = "inactive"))) := by
  unfold statusErrs
  split <;> simp_all

/-- Claim C4: row validation is independent per row, reports every error
with display row `rowIndex + 2`, and collects exactly one error per
violated field — item_name, category_name (required and existing,
case-insensitively), uom, gsm (numeric when present), status (active or
inactive when present) — without stopping at the first violation. -/
theorem validate_row_spec (cats : List Category) (r : RowData) (i : Nat) :
    (∀ e ∈ validateRow cats r i, e.row = i + 2) ∧
    ((∃ e ∈ validateRow cats r i, e.field = "item_name") ↔ trimStr r.item_name = "") ∧
    ((∃ e ∈ validateRow cats r i, e.field = "category_name") ↔
      (trimStr r.category_name = "" ∨ findCategory cats r.category_name = none)) ∧
    ((∃ e ∈ validateRow cats r i, e.field = "uom") ↔ trimStr r.uom = "") ∧
    ((∃ e ∈ validateRow cats r i, e.field = "gsm") ↔
      (r.gsm ≠ "" ∧ parseFloatNaN r.gsm = true)) ∧
    ((∃ e ∈ validateRow cats r i, e.field = "status") ↔
      (r.status ≠ "" ∧
        ¬(toLowerStr r.status = "active" ∨ toLowerStr r.status = "inactive"))) := by
  obtain ⟨A1, B1⟩ := itemNameErrs_shape r i
  obtain ⟨A2, B2⟩ := categoryErrs_shape cats r i
  obtain ⟨A3, B3⟩ := uomErrs_shape r i
  obtain ⟨A4, B4⟩ := gsmErrs_shape r i
  obtain ⟨A5, B5⟩ := statusErrs_shape r i
  have mem5 : ∀ e, e ∈ validateRow cats r i ↔
      (e ∈ itemNameErrs r i ∨ e ∈ categoryErrs cats r i ∨ e ∈ uomErrs r i ∨
       e ∈ gsmErrs r i ∨ e ∈ statusErrs r i) := by
    intro e
    simp [validateRow, List.mem_append, or_assoc]
  refine ⟨?_, ?_, ?_, ?_, ?_, ?_⟩
  · intro e he
    rcases (mem5 e).mp he with h | h | h | h | h
    · exact (A1 e h).1
    · exact (A2 e h).1
    · exact (A3 e h).1
    · exact (A4 e h).1
    · exact (A5 e h).1
  · constructor
    · rintro ⟨e, he, hfld⟩
      rcases (mem5 e).mp he with h | h | h | h | h
      · exact B1.mp ⟨e, h, hfld⟩
      · exfalso; have hx := (A2 e h).2; rw [hfld] at hx; exact absurd hx (by decide)
      · exfalso; have hx := (A3 e h).2; rw [hfld] at hx; exact absurd hx (by decide)
      · exfalso; have hx := (A4 e h).2; rw [hfld] at hx; exact absurd hx (by decide)
      · exfalso; have hx := (A5 e h).2; rw [hfld] at hx; exact absurd hx (by decide)
    · intro hc
      obtain ⟨e, he, hfld⟩ := B1.mpr hc
      exact ⟨e, (mem5 e).mpr (Or.inl he), hfld⟩
  · constructor
    · rintro ⟨e, he, hfld⟩
      rcases (mem5 e).mp he with h | h | h | h | h
      · exfalso; have hx := (A1 e h).2; rw [hfld] at hx; exact absurd hx (by decide)
      · exact B2.mp ⟨e, h, hfld⟩
      · exfalso; have hx := (A3 e h).2; rw [hfld] at hx; exact absurd hx (by decide)
      · exfalso; have hx := (A4 e h).2; rw [hfld] at hx; exact absurd hx (by decide)
      · exfalso; have hx := (A5 e h).2; rw [hfld] at hx; exact absurd hx (by decide)
    · intro hc
      obtain ⟨e, he, hfld⟩ := B2.mpr hc
      exact ⟨e, (mem5 e).mpr (Or.inr (Or.inl he)), hfld⟩
  · constructor
    · rintro ⟨e, he, hfld⟩
      rcases (mem5 e).mp he with h | h | h | h | h
      · exfalso; have hx := (A1 e h).2; rw [hfld] at hx; exact absurd hx (by decide)
      · exfalso; have hx := (A2 e h).2; rw [hfld] at hx; exact absurd hx (by decide)
      · exact B3.mp ⟨e, h, hfld⟩
      · exfalso; have hx := (A4 e h).2; rw [hfld] at hx; exact absurd hx (by decide)
      · exfalso; have hx := (A5 e h).2; rw [hfld] at hx; exact absurd hx (by decide)
    · intro hc
      obtain ⟨e, he, hfld⟩ := B3.mpr hc
      exact ⟨e, (mem5 e).mpr (Or.inr (Or.inr (Or.inl he))), hfld⟩
  · constructor
    · rintro ⟨e, he, hfld⟩
      rcases (mem5 e).mp he with h | h | h | h | h
      · exfalso; have hx := (A1 e h).2; rw [hfld] at hx; exact absurd hx (by decide)
      · exfalso; have hx := (A2 e h).2; rw [hfld] at hx; exact absurd hx (by decide)
      · exfalso; have hx := (A3 e h).2; rw [hfld] at hx; exact absurd hx (by decide)
      · exact B4.mp ⟨e, h, hfld⟩
      · exfalso; have hx := (A5 e h).2; rw [hfld] at hx; exact absurd hx (by decide)
    · intro hc
      obtain ⟨e, he, hfld⟩ := B4.mpr hc
      exact ⟨e, (mem5 e).mpr (Or.inr (Or.inr (Or.inr (Or.inl he)))), hfld⟩
  · constructor
    · rintro ⟨e, he, hfld⟩
      rcases (mem5 e).mp he with h | h | h | h | h
      · exfalso; have hx := (A1 e h).2; rw [hfld] at hx; exact absurd hx (by decide)
      · exfalso; have hx := (A2 e h).2; rw [hfld] at hx; exact absurd hx (by decide)
      · exfalso; have hx := (A3 e h).2; rw [hfld] at hx; exact absurd hx (by decide)
      · exfalso; have hx := (A4 e h).2; rw [hfld] at hx; exact absurd hx (by decide)
      · exact B5.mp ⟨e, h, hfld⟩
    · intro hc
      obtain ⟨e, he, hfld⟩ := B5.mpr hc
      exact ⟨e, (mem5 e).mpr (Or.inr (Or.inr (Or.inr (Or.inr he)))), hfld⟩

/-- Witness for C4: the all-invalid row yields the item_name and gsm
errors, and the error records carry display row index 2. -/
theorem validate_row_spec_witness :
    (∃ e ∈ validateRow catsP rowBad 0, e.field = "item_name") ∧
    (∃ e ∈ validateRow catsP rowBad 0, e.field = "gsm") ∧
    ({ row := 0 + 2, field := "item_name", message := "Item name is required",
       data := rowBad } : ValidationError).row = 0 + 2 := by
  have h := validate_row_spec catsP rowBad 0
  exact ⟨h.2.1.mpr (by decide), h.2.2.2.2.1.mpr (by decide), h.1 _ (by decide)⟩

/-- Claim C8: the two import types differ on unmatched categories — in
the item-master validation an unmatched non-empty category rejects the
row with a category_name error, while the opening-stock import creates
the category and proceeds with the item and stock upserts. -/
theorem category_policy_spec (cats : List Category) (r : RowData) (i : Nat)
    (env : OpeningEnv) (orow : OpeningRow) (j newId : Nat) :
    (trimStr r.category_name ≠ "" → findCategory cats r.category_name = none →
      ({ row := i + 2, field := "category_name",
         message := "Category does not exist: " ++ r.category_name,
         data := r } : ValidationError) ∈ validateRow cats r i) ∧
    (orow.category ≠ "" → ilikeMatches env.categories orow.category = [] →
     env.insert_category orow.category = Except.ok newId →
     env.upsert_item orow.item_code (jsOr orow.item_name orow.item_code)
       (some newId) (jsOr orow.uom "PCS") = none →
     env.upsert_stock orow.item_code (openingQtyOf orow.opening_qty) = none →
     processOpeningStockRow env orow j =
       ([Mutation.insertCategory orow.category,
         Mutation.upsertItem orow.item_code (jsOr orow.item_name orow.item_code)
           (some newId) (jsOr orow.uom "PCS"),
         Mutation.upsertStock orow.item_code (openingQtyOf orow.opening_qty)],
        none)) := by
  constructor
  · intro hne hnone
    have hmem : ValidationError.mk (i + 2) "category_name"
        ("Category does not exist: " ++ r.category_name) r ∈ categoryErrs cats r i := by
      unfold categoryErrs
      rw [if_neg hne, hnone]
      simp
    simp [validateRow, List.mem_append]
    exact Or.inr (Or.inl hmem)
  · intro h0 h1 h2 h3 h4
    unfold processOpeningStockRow findOrCreateCategory lookupSingle
    rw [if_neg h0, h1]
    dsimp only
    rw [h2]
    dsimp only
    rw [h3]
    dsimp only
    rw [h4]
    rfl

/-- Witness for C8: Raw Materials is absent from the category list; the
item-master row is rejected while the opening-stock row auto-creates
the category (id 7) and proceeds. -/
theorem category_policy_spec_witness :
    ({ row := 0 + 2, field := "category_name",
       message := "Category does not exist: " ++ rowX.category_name,
       data := rowX } : ValidationError) ∈ validateRow catsP rowX 0 ∧
    processOpeningStockRow openEnvW orowW 0 =
      ([Mutation.insertCategory orowW.category,
        Mutation.upsertItem orowW.item_code (jsOr orowW.item_name orowW.item_code)
          (some 7) (jsOr orowW.uom "PCS"),
        Mutation.upsertStock orowW.item_code (openingQtyOf orowW.opening_qty)],
       none) := by
  have h := category_policy_spec catsP rowX 0 openEnvW orowW 0 7
  exact ⟨h.1 (by decide) (by decide), h.2 (by decide) (by decide) rfl rfl rfl⟩

/-- Witness for C2: over eleven failing rows the success and error
counts cover every row, the recorded error carries its row index, and
the first of the two batches holds exactly ten rows. -/
theorem apply_per_row_isolation_witness :
    (runBatches envDup [] items11).2.1 + (runBatches envDup [] items11).2.2.length =
      items11.length ∧
    errDup.row = (rowX, 2).2 ∧
    (∃ b, (chunks10 items11).get? 0 = some b ∧ b.length = 10) := by
  have h := apply_per_row_isolation_and_batching envDup [] items11
  exact ⟨h.1, h.2.2.1 (rowX, 2) errDup (by decide), h.2.2.2.2.2 0 (by decide)⟩

/-- Witness for C10: the `error`-resolved conflict row is kept, handled
exactly like a conflict-free row, and its failing insert is recorded as
that row's apply error. -/
theorem conflict_error_goes_insert_path_witness :
    keepRow [conErr] (rowX, 2) = true ∧
    processItem envDup [conErr] (rowX, 2) = processItem envDup [] (rowX, 2) ∧
    (processItem envDup [conErr] (rowX, 2)).2 = some errDup := by
  have h := conflict_error_goes_insert_path envDup [conErr] (rowX, 2) conErr rfl rfl
  exact ⟨h.1, h.2, by decide⟩

/-- Witness for C3, on the mixed batch (row 2 `skip`, row 3 `update`):
the skip row is dropped, only the update row is processed (report
`1 / 0 / 2` with its errors the pointwise collection over the one
surviving row), and the all-skip run over a single skip row reports
`0 / 0 / 1` with an audit-only trace. -/
theorem skip_rows_are_noops_witness :
    keepRow cs2 (rowX, 2) = false ∧
    (withRowIndex rows2).filter (keepRow cs2) = [(rowX, 3)] ∧
    (executeUpload envU cs2 rows2 (some "user1") "items.csv" none).1 =
      { success := 1, errors := [], total := 2 } ∧
    (executeUpload envU cs2 rows2 (some "user1") "items.csv" none).1.errors =
      ((withRowIndex rows2).filter (keepRow cs2)).filterMap
        (fun it => (processItem envU cs2 it).2) ∧
    (executeUpload envDup [conSkip] [rowX] (some "user1") "items.csv" none).1 =
      { success := 0, errors := [], total := [rowX].length } ∧
    isAudit (Mutation.insertAuditLog "user1" "items.csv" "item_master" 1 0 0 []) = true := by
  have h := skip_rows_are_noops envU cs2 rows2 (some "user1") "items.csv" none
  have h2 := (skip_rows_are_noops envDup [conSkip] [rowX] (some "user1") "items.csv"
      none).2.2.2.2.2
    (by
      intro it hit
      simp [withRowIndex, withRowIndexFrom] at hit
      subst hit
      exact ⟨conSkip, rfl, rfl⟩)
  exact ⟨h.1 (rowX, 2) (by decide) ⟨conSkip, rfl, rfl⟩, by decide, by decide,
    h.2.2.1, h2.1, h2.2 _ (by decide)⟩

/-- Witness for C9 (amended): the reported result does not change with
the audit outcome, and the authenticated run's trace holds exactly the
one audit record. -/
theorem audit_log_spec_witness :
    (executeUpload envDup [] [rowX] (some "user1") "items.csv" none).1 =
      (executeUpload envDup [] [rowX] (some "user1") "items.csv" (some "audit failed")).1 ∧
    (executeUpload envDup [] [rowX] (some "user1") "items.csv" none).2.filter isAudit =
      [Mutation.insertAuditLog "user1" "items.csv" "item_master" [rowX].length
        (executeUpload envDup [] [rowX] (some "user1") "items.csv" none).1.success
        (executeUpload envDup [] [rowX] (some "user1") "items.csv" none).1.errors.length
        (executeUpload envDup [] [rowX] (some "user1") "items.csv" none).1.errors] := by
  have h := audit_log_spec envDup [] [rowX] (some "user1") "items.csv" none (some "audit failed")
  exact ⟨h.1, h.2.2 "user1" rfl⟩

/-- Claim C9 counterexample: with no user session the apply completes
but zero audit writes are issued, so "exactly one audit write" fails. -/
theorem audit_write_counterexample :
    (executeUpload envDup [] [rowX] none "items.csv" none).2.filter isAudit = [] ∧
    ((executeUpload envDup [] [rowX] none "items.csv" none).2.filter isAudit).length ≠ 1 := by
  refine ⟨by decide, by decide⟩

/-- Witness for C7 (amended): a two-line file parses into its header
split and tokenized data row, and a blank-only file is rejected. -/
theorem parse_csv_spec_witness :
    parseCSV "a,b\nx,y" = Except.ok
      { headers := (splitOnChar ',' "a,b").map (fun h => stripOuterQuotes (trimStr h)),
        rows := [tokenizeLine "x,y"] } ∧
    (∃ msg, parseCSV "\n \n" = Except.error msg) := by
  constructor
  · exact (parse_csv_spec "a,b\nx,y").2 "a,b" ["x,y"] (by decide)
  · exact (parse_csv_spec "\n \n").1.mpr (by decide)
